import Mathlib

/-!
Shallow embedding of the go-magic binding (`magic.go`, `functions.c`) used to
check the natural-language specification against the code.  Go methods on the
`Magic` wrapper become Lean functions over an explicit `MagicState`; the native
libmagic library is an opaque oracle (`NativeEnv`), and every native wrapper
invocation is recorded in a `NativeCall` trace so that "performs no native
call" style properties can be stated.
-/

namespace GoMagic

/-! ## Flag constants

Values of the libmagic ABI constants re-exported by `constants.go`
(`MAGIC_NONE`, `MAGIC_MIME_TYPE`, ...; `EXTENSION` is `MAGIC_EXTENSION`
from the native `magic.h`). -/

def NONE : Nat := 0x000000
def MIME_TYPE : Nat := 0x000010
def CONTINUE : Nat := 0x000020
def RAW : Nat := 0x000100
def ERROR : Nat := 0x000200
def MIME_ENCODING : Nat := 0x000400
def MIME : Nat := MIME_TYPE ||| MIME_ENCODING
def EXTENSION : Nat := 0x1000000

/-! ## Errno values (Linux), as used through the `syscall` package. -/

def EBADF : Int := 9
def ENOMEM : Int := 12
def EFAULT : Int := 14
def EINVAL : Int := 22
def ENOSYS : Int := 38
def EOVERFLOW : Int := 75

/-- The `errors.go`: `type Error struct { Errno int; Message string }`. -/
structure Error where
  errno : Int
  message : String
deriving Repr, DecidableEq

/-- The cached state of the Go `magic` struct (`magic.go`).  `cookie` is
`true` when the native handle is non-nil. -/
structure MagicState where
  flags : Nat
  paths : List String
  cookie : Bool
  autoload : Bool
  errors : Bool
  loaded : Bool
deriving Repr, DecidableEq

/-- One invocation of a native wrapper from `functions.c`, recorded so that
theorems can state which native calls an operation performs. -/
inductive NativeCall where
  | openCall
  | closeCall
  | getpath
  | getflags
  | setflags (flags : Nat)
  | getparam (p : Int)
  | setparam (p v : Int)
  | load (files : String) (flags : Nat)
  | loadBuffers (count : Nat) (flags : Nat)
  | compile (file : String) (flags : Nat)
  | check (file : String) (flags : Nat)
  | file (name : String) (flags : Nat)
  | buffer (size : Nat) (flags : Nat)
  | descriptor (fd : Int) (flags : Nat)
  | errorQuery
  | errnoQuery
deriving Repr, DecidableEq

/-- Result of `C.magic_getflags_wrapper` as observed by the Go caller:
a value, or a negative return with errno `ENOSYS`, or some other failure. -/
inductive GetflagsRes where
  | ok (v : Nat)
  | enosys
  | fail
deriving Repr, DecidableEq

/-- Oracle for the native libmagic library and the process environment: one
record per scenario, fixing what each native wrapper call would return. -/
structure NativeEnv where
  /-- The `os.Getenv "MAGIC"`. -/
  magicVar : String
  /-- The `os.Getenv "MAGIC_DO_NOT_AUTOLOAD"`. -/
  doNotAutoload : String
  /-- The `os.Getenv "MAGIC_DO_NOT_STOP_ON_ERROR"`. -/
  doNotStopOnError : String
  /-- The `C.magic_open_wrapper` succeeds (fails only on allocation exhaustion). -/
  openOk : Bool
  /-- The `C.magic_getpath_wrapper()` (colon-separated default search path). -/
  defaultPath : String
  /-- The `C.magic_error_wrapper` (nil pointer or the message string). -/
  errStr : Option String
  /-- The `C.magic_errno_wrapper`. -/
  errnoVal : Int
  getflagsRes : GetflagsRes
  /-- The `some errno` when `C.magic_setflags_wrapper` fails. -/
  setflagsErrno : Nat → Option Int
  /-- The `.error errno` or `.ok value` from `C.magic_getparam_wrapper`. -/
  getparamRes : Int → Except Int Int
  /-- The `some errno` when `C.magic_setparam_wrapper` fails. -/
  setparamErrno : Int → Int → Option Int
  /-- The `C.magic_load_wrapper` succeeds on this colon-joined file list. -/
  loadOk : String → Bool
  /-- The `C.magic_load_buffers_wrapper` succeeds. -/
  loadBuffersOk : Bool
  /-- The `C.magic_compile_wrapper` succeeds. -/
  compileOk : String → Bool
  /-- The `C.magic_check_wrapper` succeeds. -/
  checkOk : String → Bool
  /-- Output of `C.magic_file_wrapper` (nil or a string). -/
  fileRes : String → Option String
  /-- Output of `C.magic_buffer_wrapper` on (pointer, size); the pointer is
  modelled as the buffer contents, `none` being the null pointer. -/
  bufferRes : Option (List Nat) → Nat → Option String
  /-- Output of `C.magic_descriptor_wrapper`. -/
  descRes : Int → Option String
  /-- errno observed (via cgo) after `C.magic_descriptor_wrapper`. -/
  descErrno : Option Int

deriving instance DecidableEq for Except

/-- The precondition error of `verifyOpen`. -/
def notOpenError : Error := ⟨EFAULT, "Magic library is not open"⟩

/-- The precondition error of `verifyLoaded`. -/
def notLoadedError : Error := ⟨-1, "Magic database not loaded"⟩

/-- The `verifyOpen` (`magic.go` lines 1536-1541): `some` error when the library
is not open. -/
def verifyOpen (m : MagicState) : Option Error :=
  if m.cookie then none else some notOpenError

/-- The `verifyLoaded` (`magic.go` lines 1543-1550). -/
def verifyLoaded (m : MagicState) : Option Error :=
  if (verifyOpen m).isNone ∧ m.loaded then none
  else some notLoadedError

/-- The `(*magic).error` method: reads the native error message. -/
def magicError (env : NativeEnv) : Error :=
  match env.errStr with
  | some s =>
    if s = "" ∨ s = "(null)" then ⟨-1, "empty or invalid error message"⟩
    else ⟨env.errnoVal, s⟩
  | none => ⟨-1, "an unknown error has occurred"⟩

/-- Native calls performed by `(*magic).error`. -/
def magicErrorCalls (env : NativeEnv) : List NativeCall :=
  match env.errStr with
  | some s =>
    if s = "" ∨ s = "(null)" then [.errorQuery]
    else [.errorQuery, .errnoQuery]
  | none => [.errorQuery]

/-- The `errorOrString` (`magic.go` lines 1576-1602), translated with its exact
branch order: a non-empty string is returned as a success before the
sentinel tests are reached. -/
def errorOrString (env : NativeEnv) (m : MagicState) (cString : Option String) :
    Except Error String :=
  match cString with
  | none => .error ⟨-1, "unknown result or nil pointer"⟩
  | some s =>
    if s ≠ "" then .ok s
    else if s = "???" ∨ s = "(null)" then
      if m.flags &&& EXTENSION ≠ 0 then .ok ""
      else .error ⟨-1, "empty or invalid result"⟩
    else .error (magicError env)

/-- Native calls performed inside `errorOrString`. -/
def errorOrStringCalls (env : NativeEnv) (cString : Option String) :
    List NativeCall :=
  match cString with
  | none => []
  | some s =>
    if s ≠ "" then []
    else if s = "???" ∨ s = "(null)" then []
    else magicErrorCalls env

/-- The flag value `flagsSaveAndRestore` forces for the duration of a query:
`mgc.flags | RAW`, plus `ERROR` when strict error reporting is on. -/
def forcedFlags (m : MagicState) : Nat :=
  if m.errors then (m.flags ||| RAW) ||| ERROR else m.flags ||| RAW

/-- The source's `ok` condition: the forced value is written to the native
session only when it contains `CONTINUE` or `ERROR`. -/
def forcesWrite (m : MagicState) : Prop :=
  forcedFlags m &&& CONTINUE ≠ 0 ∨ forcedFlags m &&& ERROR ≠ 0

instance (m : MagicState) : Decidable (forcesWrite m) := by
  unfold forcesWrite; infer_instance

/-- The `flagsSaveAndRestore` (`magic.go` lines 1552-1574).  The closure `f`
receives the value of `mgc.flags` at the moment it runs (the original value,
already restored).  Forced native flag writes happen before (and the deferred
restore after) the closure, exactly under the source's conditions. -/
def flagsSaveAndRestore {α : Type} (m : MagicState)
    (f : Nat → α × List NativeCall) : α × MagicState × List NativeCall :=
  let flags := m.flags
  let forced := forcedFlags m
  let ok := forcesWrite m
  let pre := if ok then [NativeCall.setflags forced] else []
  let restored : MagicState := { m with flags := flags }
  let res := f restored.flags
  let post := if ok ∧ flags > 0 then [NativeCall.setflags restored.flags] else []
  (res.1, restored, pre ++ res.2 ++ post)

/-- The native session's flag register after replaying the `setflags`
entries of a trace, starting from value `n`. -/
def applySetflags (n : Nat) : List NativeCall → Nat
  | [] => n
  | .setflags v :: rest => applySetflags v rest
  | _ :: rest => applySetflags n rest

/-- The `strings.Split(s, ":")`, modelled structurally over the characters
(Go's `Split` on an empty string yields `[""]`, as does this model). -/
def splitColonAux : List Char → List Char → List String
  | [], acc => [String.mk acc.reverse]
  | c :: rest, acc =>
    if c = ':' then String.mk acc.reverse :: splitColonAux rest []
    else splitColonAux rest (c :: acc)

def splitColon (s : String) : List String := splitColonAux s.data []

/-- The `(*Magic).Paths`. -/
def Paths (env : NativeEnv) (m : MagicState) :
    Except Error (List String) × MagicState × List NativeCall :=
  match verifyOpen m with
  | some e => (.error e, m, [])
  | none =>
    if m.paths ≠ [] ∧ env.magicVar = "" then (.ok m.paths, m, [])
    else (.ok (splitColon env.defaultPath), m, [.getpath])

/-- The `(*Magic).Parameter`. -/
def Parameter (env : NativeEnv) (m : MagicState) (parameter : Int) :
    Except Error Int × MagicState × List NativeCall :=
  match verifyOpen m with
  | some e => (.error e, m, [])
  | none =>
    match env.getparamRes parameter with
    | .ok v => (.ok v, m, [.getparam parameter])
    | .error errno =>
      if errno = EINVAL then
        (.error ⟨EINVAL, "unknown or invalid parameter specified"⟩, m,
          [.getparam parameter])
      else
        (.error (magicError env), m, [.getparam parameter] ++ magicErrorCalls env)

/-- The `(*Magic).SetParameter`. -/
def SetParameter (env : NativeEnv) (m : MagicState) (parameter value : Int) :
    Except Error Unit × MagicState × List NativeCall :=
  match verifyOpen m with
  | some e => (.error e, m, [])
  | none =>
    match env.setparamErrno parameter value with
    | none => (.ok (), m, [.setparam parameter value])
    | some errno =>
      if errno = EINVAL then
        (.error ⟨EINVAL, "unknown or invalid parameter specified"⟩, m,
          [.setparam parameter value])
      else if errno = EOVERFLOW then
        (.error ⟨EOVERFLOW, "invalid parameter value specified"⟩, m,
          [.setparam parameter value])
      else
        (.error (magicError env), m,
          [.setparam parameter value] ++ magicErrorCalls env)

/-- The `(*Magic).Flags`. -/
def Flags (env : NativeEnv) (m : MagicState) :
    Except Error Nat × MagicState × List NativeCall :=
  match verifyOpen m with
  | some e => (.error e, m, [])
  | none =>
    match env.getflagsRes with
    | .ok v => (.ok v, m, [.getflags])
    | .enosys => (.ok m.flags, m, [.getflags])
    | .fail => (.error (magicError env), m, [.getflags] ++ magicErrorCalls env)

/-- The `(*Magic).SetFlags`. -/
def SetFlags (env : NativeEnv) (m : MagicState) (flags : Nat) :
    Except Error Unit × MagicState × List NativeCall :=
  match verifyOpen m with
  | some e => (.error e, m, [])
  | none =>
    match env.setflagsErrno flags with
    | none => (.ok (), { m with flags := flags }, [.setflags flags])
    | some errno =>
      if errno = EINVAL then
        (.error ⟨EINVAL, "unknown or invalid flag specified"⟩, m, [.setflags flags])
      else
        (.error (magicError env), m, [.setflags flags] ++ magicErrorCalls env)

/-- Fuel-based floor of the base-2 logarithm; with `fuel ≥ n` this models
`int(math.Log2(float64 n))` from `FlagsSlice`, which is exact over the
flag-bitmask range. -/
def log2floorAux : Nat → Nat → Nat
  | _, 0 => 0
  | n, fuel + 1 => if 2 ≤ n then log2floorAux (n / 2) fuel + 1 else 0

def log2floor (n : Nat) : Nat := log2floorAux n n

/-- The `int(math.Pow(2, float64(int(math.Log2(float64 i)))))`: the highest set
bit of `i` as a power of two. -/
def highBit (i : Nat) : Nat := 2 ^ log2floor i

/-- The extraction loop of `FlagsSlice` (`for i := mgc.flags; i > 0; i -= n`),
with fuel as a termination device; `fuel ≥ i` always suffices because each
round removes the highest set bit. -/
def bitsDescAux : Nat → Nat → List Nat
  | _, 0 => []
  | i, fuel + 1 => if 0 < i then highBit i :: bitsDescAux (i - highBit i) fuel else []

def bitsDesc (i : Nat) : List Nat := bitsDescAux i i

/-- The `sort.Ints`, modelled as insertion sort in ascending order. -/
def sortInts (l : List Nat) : List Nat := l.insertionSort (· ≤ ·)

/-- The `(*Magic).FlagsSlice`. -/
def FlagsSlice (m : MagicState) :
    Except Error (List Nat) × MagicState × List NativeCall :=
  match verifyOpen m with
  | some e => (.error e, m, [])
  | none =>
    if m.flags = 0 then (.ok [0], m, [])
    else (.ok (sortInts (bitsDesc m.flags)), m, [])

/-- The colon-joined file-list argument `Load` hands to the native
`magic_load_wrapper`: the joined custom files, or the default search path. -/
def loadFilesArg (env : NativeEnv) (files : List String) : String :=
  if files ≠ [] then String.intercalate ":" files else env.defaultPath

/-- The `(*Magic).Load` (`magic.go` lines 1158-1189): clears `paths` on entry,
resolves the colon-joined list (or the native default path), and updates
`loaded`/`paths` according to the native result. -/
def Load (env : NativeEnv) (m : MagicState) (files : List String) :
    Except Error Unit × MagicState × List NativeCall :=
  match verifyOpen m with
  | some e => (.error e, m, [])
  | none =>
    let m1 := { m with paths := [] }
    let cFiles := loadFilesArg env files
    let getpathCalls : List NativeCall := if files ≠ [] then [] else [.getpath]
    if env.loadOk cFiles then
      (.ok (), { m1 with loaded := true, paths := splitColon cFiles },
        getpathCalls ++ [.load cFiles m.flags])
    else
      (.error (magicError env), { m1 with loaded := false },
        getpathCalls ++ [.load cFiles m.flags] ++ magicErrorCalls env)

/-- The `(*Magic).LoadBuffers`.  On failure the error is built directly from
`magic_error_wrapper` (not via `(*magic).error`). -/
def LoadBuffers (env : NativeEnv) (m : MagicState) (buffers : List (List Nat)) :
    Except Error Unit × MagicState × List NativeCall :=
  match verifyOpen m with
  | some e => (.error e, m, [])
  | none =>
    let m1 := { m with paths := [] }
    if env.loadBuffersOk then
      (.ok (), { m1 with loaded := true }, [.loadBuffers buffers.length m.flags])
    else
      let e : Error :=
        match env.errStr with
        | some s => ⟨-1, s⟩
        | none => ⟨-1, "unable to load Magic database"⟩
      (.error e, { m1 with loaded := false },
        [.loadBuffers buffers.length m.flags, .errorQuery])

/-- The `(*Magic).Compile`. -/
def Compile (env : NativeEnv) (m : MagicState) (file : String) :
    Except Error Unit × MagicState × List NativeCall :=
  match verifyOpen m with
  | some e => (.error e, m, [])
  | none =>
    if env.compileOk file then (.ok (), m, [.compile file m.flags])
    else (.error (magicError env), m, [.compile file m.flags] ++ magicErrorCalls env)

/-- The `(*Magic).Check`. -/
def Check (env : NativeEnv) (m : MagicState) (file : String) :
    Except Error Bool × MagicState × List NativeCall :=
  match verifyOpen m with
  | some e => (.error e, m, [])
  | none =>
    if env.checkOk file then (.ok true, m, [.check file m.flags])
    else (.error (magicError env), m, [.check file m.flags] ++ magicErrorCalls env)

/-- The `(*Magic).File` (`magic.go` lines 1281-1318). -/
def File (env : NativeEnv) (m : MagicState) (file : String) :
    Except Error String × MagicState × List NativeCall :=
  match verifyOpen m with
  | some e => (.error e, m, [])
  | none =>
  match verifyLoaded m with
  | some e => (.error e, m, [])
  | none =>
    let r := flagsSaveAndRestore m (fun fl => (env.fileRes file, [NativeCall.file file fl]))
    let m1 := r.2.1
    let calls := r.2.2
    match r.1 with
    | none =>
      if m1.errors ∨ m1.flags &&& ERROR ≠ 0 then
        (.error (magicError env), m1, calls ++ magicErrorCalls env)
      else
        let cString2 := env.errStr
        (errorOrString env m1 cString2, m1,
          calls ++ [.errorQuery] ++ errorOrStringCalls env cString2)
    | some s =>
      (errorOrString env m1 (some s), m1, calls ++ errorOrStringCalls env (some s))

/-- Outcome of executing a Go function: a normal return or a runtime panic. -/
inductive GoOutcome (α : Type) where
  | panics (msg : String)
  | returns (val : α)
deriving Repr, DecidableEq

/-- Go's `&b[0]`: the address of the first element, panicking when the slice
is empty (the pointer is modelled as the buffer contents). -/
def goFirstAddr (b : List Nat) : GoOutcome (List Nat) :=
  if 0 < b.length then .returns b
  else .panics "runtime error: index out of range"

/-- The `(*Magic).Buffer` (`magic.go` lines 1321-1346): the address of
`buffer[0]` is taken only under the `cSize > 0` guard, the null pointer
being passed otherwise. -/
def Buffer (env : NativeEnv) (m : MagicState) (buffer : List Nat) :
    GoOutcome (Except Error String × MagicState × List NativeCall) :=
  match verifyOpen m with
  | some e => .returns (.error e, m, [])
  | none =>
  match verifyLoaded m with
  | some e => .returns (.error e, m, [])
  | none =>
    let cSize := buffer.length
    let pOut : GoOutcome (Option (List Nat)) :=
      if 0 < cSize then
        match goFirstAddr buffer with
        | .panics msg => .panics msg
        | .returns p => .returns (some p)
      else .returns none
    match pOut with
    | .panics msg => .panics msg
    | .returns p =>
      let r := flagsSaveAndRestore m (fun fl => (env.bufferRes p cSize, [NativeCall.buffer cSize fl]))
      .returns (errorOrString env r.2.1 r.1, r.2.1, r.2.2 ++ errorOrStringCalls env r.1)

/-- The `(*Magic).Descriptor` (Go side).  A non-`EBADF` errno falls through to
`errorOrString`, exactly as in the source. -/
def Descriptor (env : NativeEnv) (m : MagicState) (fd : Int) :
    Except Error String × MagicState × List NativeCall :=
  match verifyOpen m with
  | some e => (.error e, m, [])
  | none =>
  match verifyLoaded m with
  | some e => (.error e, m, [])
  | none =>
    let r := flagsSaveAndRestore m (fun fl => (env.descRes fd, [NativeCall.descriptor fd fl]))
    match env.descErrno with
    | some errno =>
      if errno = EBADF then (.error ⟨EBADF, "bad file descriptor"⟩, r.2.1, r.2.2)
      else (errorOrString env r.2.1 r.1, r.2.1, r.2.2 ++ errorOrStringCalls env r.1)
    | none =>
      (errorOrString env r.2.1 r.1, r.2.1, r.2.2 ++ errorOrStringCalls env r.1)

/-- The `(*magic).close` (`magic.go` lines 891-899): releases the native handle
if present and clears the cached paths; a safe no-op otherwise. -/
def close (m : MagicState) : MagicState × List NativeCall :=
  if m.cookie then ({ m with paths := [], cookie := false }, [.closeCall])
  else (m, [])

/-- The `(*Magic).Close` (lines 976-980): `close` under the session lock. -/
def Close (m : MagicState) : MagicState × List NativeCall := close m

/-- The `(*Magic).IsOpen`. -/
def IsOpen (m : MagicState) : Bool := (verifyOpen m).isNone

/-- The `(*Magic).IsClosed`. -/
def IsClosed (m : MagicState) : Bool := ¬ IsOpen m

/-- The `(*Magic).HasLoaded`. -/
def HasLoaded (m : MagicState) : Bool := (verifyLoaded m).isNone

/-! ## Construction (`New`), options, and the scoped helper (`Open`) -/

/-- The option constructors exported by `magic.go` (`DoNotStopOnErrors`,
`DisableAutoload`, `WithFiles`, `WithBuffers`). -/
inductive GoOption where
  | doNotStopOnErrors
  | disableAutoload
  | withFiles (files : List String)
  | withBuffers (buffers : List (List Nat))

/-- Whether an option can load a database. -/
def optionLoads : GoOption → Bool
  | .withFiles _ => true
  | .withBuffers _ => true
  | _ => false

/-- The error component of a fallible call, as the `Option` the Go option
callbacks return. -/
def exceptError {ε α : Type} : Except ε α → Option ε
  | .ok _ => none
  | .error e => some e

/-- Applying one option to the session under construction. -/
def applyOption (env : NativeEnv) (m : MagicState) :
    GoOption → Option Error × MagicState × List NativeCall
  | .doNotStopOnErrors => (none, { m with errors := false }, [])
  | .disableAutoload => (none, { m with autoload := false }, [])
  | .withFiles files =>
    (exceptError (Load env m files).1, (Load env m files).2.1,
      (Load env m files).2.2)
  | .withBuffers buffers =>
    (exceptError (LoadBuffers env m buffers).1, (LoadBuffers env m buffers).2.1,
      (LoadBuffers env m buffers).2.2)

/-- The option loop of `New`: stops at the first failing option. -/
def runOptions (env : NativeEnv) (m : MagicState) :
    List GoOption → Option Error × MagicState × List NativeCall
  | [] => (none, m, [])
  | o :: rest =>
    let r := applyOption env m o
    match r.1 with
    | none =>
      let r2 := runOptions env r.2.1 rest
      (r2.1, r2.2.1, r.2.2 ++ r2.2.2)
    | some e => (some e, r.2.1, r.2.2)

/-- The session state built by `open()` (`magic.go` lines 879-888). -/
def initialState : MagicState :=
  { flags := NONE, paths := [], cookie := true, autoload := true,
    errors := true, loaded := false }

/-- The `open()` output adjusted by the two environment variables that `New`
consults before applying any option (`magic.go` lines 944-949). -/
def newEnvState (env : NativeEnv) : MagicState :=
  let m1 := if env.doNotAutoload ≠ "" then { initialState with autoload := false }
            else initialState
  if env.doNotStopOnError ≠ "" then { m1 with errors := false } else m1

/-- The `New` (`magic.go` lines 938-964).  On an option failure the session is
closed before the error is returned; on an autoload failure it is not. -/
def New (env : NativeEnv) (opts : List GoOption) :
    Except Error MagicState × List NativeCall :=
  if env.openOk then
    let r := runOptions env (newEnvState env) opts
    match r.1 with
    | some e =>
      (.error e, [NativeCall.openCall] ++ r.2.2 ++ (close r.2.1).2)
    | none =>
      if r.2.1.autoload ∧ ¬ r.2.1.loaded then
        let r2 := Load env r.2.1 []
        match r2.1 with
        | .ok _ => (.ok r2.2.1, [NativeCall.openCall] ++ r.2.2 ++ r2.2.2)
        | .error e => (.error e, [NativeCall.openCall] ++ r.2.2 ++ r2.2.2)
      else (.ok r.2.1, [NativeCall.openCall] ++ r.2.2)
  else (.error ⟨ENOMEM, "failed to initialize Magic library"⟩, [.openCall])

/-- The value a Go callback panics with: either a value implementing
`error`, or anything else (kept as its `fmt.Sprintf "%v"` rendering). -/
inductive PanicVal where
  | errVal (e : Error)
  | otherVal (s : String)

/-- The outcome of the user callback passed to `Open`: a normal return of a
(possibly nil) error, or a panic. -/
inductive CallbackOutcome where
  | normal (e : Option Error)
  | panicked (v : PanicVal)

/-- What a call to the package-level `Open` helper did. -/
structure OpenResult where
  /-- The returned `err` (`none` = nil). -/
  result : Option Error
  /-- Whether the callback was invoked. -/
  invoked : Bool
  /-- Final state of the session handed to the callback, if one was built. -/
  sessionFinal : Option MagicState
  calls : List NativeCall

/-- The `Open` (`magic.go` lines 1377-1401).  The callback is a state
transformer on the session; the nil-function guard is the `none` case.
The deferred `mgc.Close()` runs after the deferred `recover()`. -/
def Open (env : NativeEnv)
    (f : Option (MagicState → CallbackOutcome × MagicState))
    (opts : List GoOption) : OpenResult :=
  match f with
  | none =>
    { result := some ⟨-1, "not a function or nil pointer"⟩, invoked := false,
      sessionFinal := none, calls := [] }
  | some f =>
    match (New env opts).1 with
    | .error e =>
      { result := some e, invoked := false, sessionFinal := none,
        calls := (New env opts).2 }
    | .ok m =>
      let fr := f m
      { result :=
          match fr.1 with
          | .normal e => e
          | .panicked (.errVal e) => some e
          | .panicked (.otherVal s) => some ⟨-1, s⟩,
        invoked := true,
        sessionFinal := some (close fr.2).1,
        calls := (New env opts).2 ++ (close fr.2).2 }

/-! ## C shim descriptor handling (`functions.c`)

A small model of the process's file-descriptor table, for
`magic_descriptor_wrapper` under `HAVE_BROKEN_MAGIC` (`functions.c` lines
597-623) and `safe_dup` (lines 331-362). -/

/-- The file-descriptor table: the set of open descriptors, those marked
close-on-exec, and the next number the kernel would hand out. -/
structure FdWorld where
  openFds : List Int
  cloexec : List Int
  nextFd : Int
deriving Repr, DecidableEq

/-- Well-formedness: every open descriptor is below the allocation cursor
(so a newly allocated descriptor is fresh). -/
def FdWorld.WF (w : FdWorld) : Prop := ∀ x ∈ w.openFds, x < w.nextFd

instance (w : FdWorld) : Decidable w.WF := List.decidableBAll _ _

/-- The `close`/`safe_close` at the fd-table level. -/
def removeFd (w : FdWorld) (fd : Int) : FdWorld :=
  { w with openFds := w.openFds.filter (· ≠ fd) }

/-- The `check_fd` (`functions.c`): zero iff the descriptor is valid. -/
def check_fd (w : FdWorld) (fd : Int) : Bool := fd ∈ w.openFds

/-- The `safe_dup` (`functions.c` lines 331-362): `fcntl(fd, F_DUPFD_CLOEXEC,
fileno(stderr)+1)` duplicates a valid descriptor to a fresh number and marks
it close-on-exec; an invalid descriptor yields `-1`/`EBADF`. -/
def safe_dup (w : FdWorld) (fd : Int) : Option Int × FdWorld :=
  if fd ∈ w.openFds then
    let nfd := w.nextFd
    (some nfd,
      { openFds := nfd :: w.openFds, cloexec := nfd :: w.cloexec,
        nextFd := w.nextFd + 1 })
  else (none, w)

/-- Oracle for the native `magic_descriptor` entry point. -/
structure CEnv where
  /-- The `HAVE_BROKEN_MAGIC` defect: the native call closes the descriptor
  it is given. -/
  nativeClosesFd : Bool
  /-- The match result the native call produces for a descriptor. -/
  descNative : Int → Option String

/-- Modelled from the spec: the `MAGIC_FUNCTION` macro of the newer
`functions.h` is absent from the sources (only the older header is present);
per the spec it invokes the named native entry point under scoped
stderr-suppression and locale-override, neither of which touches descriptors.
It is therefore modelled as the plain native `magic_descriptor` call, which
on broken builds closes the descriptor it receives. -/
def nativeDescriptorCall (env : CEnv) (w : FdWorld) (fd : Int) :
    Option String × FdWorld :=
  (env.descNative fd, if env.nativeClosesFd then removeFd w fd else w)

/-- The `magic_descriptor_wrapper` under `HAVE_BROKEN_MAGIC` (`functions.c`
lines 597-623): duplicate the caller's descriptor, run the native call on
the duplicate only, then close the duplicate if it is still valid.  The
third component lists the descriptors handed to the native matcher. -/
def magic_descriptor_wrapper (env : CEnv) (w : FdWorld) (fd : Int) :
    Option String × FdWorld × List Int :=
  match safe_dup w fd with
  | (none, w1) => (none, w1, [])
  | (some nfd, w1) =>
    let (res, w2) := nativeDescriptorCall env w1 nfd
    let w3 := if check_fd w2 nfd then removeFd w2 nfd else w2
    (res, w3, [nfd])

/-! ## Concrete scenarios used to evaluate the model -/

/-- A native oracle in which loading fails with ENOENT, the file matcher
reports the `"???"` sentinel, and a zero-size buffer query reports `"empty"`
(libmagic's actual answer for zero-length input). -/
def envT : NativeEnv :=
  { magicVar := "", doNotAutoload := "", doNotStopOnError := "", openOk := true,
    defaultPath := "/usr/share/misc/magic", errStr := some "could not open file",
    errnoVal := 2, getflagsRes := .enosys, setflagsErrno := fun _ => none,
    getparamRes := fun _ => .ok 0, setparamErrno := fun _ _ => none,
    loadOk := fun _ => false, loadBuffersOk := true,
    compileOk := fun _ => true, checkOk := fun _ => true,
    fileRes := fun _ => some "???", bufferRes := fun _ _ => some "empty",
    descRes := fun _ => some "data", descErrno := none }

/-- Like `envT` but with the native matcher reporting `"(null)"`. -/
def envNull : NativeEnv := { envT with fileRes := fun _ => some "(null)" }

/-- Like `envT` but with every load succeeding. -/
def envOkLoad : NativeEnv := { envT with loadOk := fun _ => true }

/-- An open session with database `A.mgc` loaded, no flags, strict errors. -/
def sessionA : MagicState :=
  { flags := 0, paths := ["A.mgc"], cookie := true, autoload := true,
    errors := true, loaded := true }

/-- A session that has been closed. -/
def sessionClosed : MagicState :=
  { flags := 0, paths := [], cookie := false, autoload := true,
    errors := true, loaded := false }

/-- Whether a query outcome is a normal return of a structured error. -/
def isErrorOutcome :
    GoOutcome (Except Error String × MagicState × List NativeCall) → Bool
  | .returns (.error _, _, _) => true
  | _ => false

/-- Whether a native call is a `magic_setflags_wrapper` invocation. -/
def isSetflags : NativeCall → Bool
  | .setflags _ => true
  | _ => false

/-- The `envT` with both construction environment variables set and loads
succeeding. -/
def envNoAuto : NativeEnv :=
  { envT with
    doNotAutoload := "1", doNotStopOnError := "1", loadOk := fun _ => true }

/-- The session `New envNoAuto []` produces: open, unloaded, autoload and
strict error reporting both disabled by the environment variables. -/
def mNoAuto : MagicState :=
  { flags := 0, paths := [], cookie := true, autoload := false,
    errors := false, loaded := false }

/-- A broken native build whose `magic_descriptor` closes the descriptor it
is handed. -/
def cenvBroken : CEnv := ⟨true, fun _ => some "ASCII text"⟩

/-- A small descriptor table: stdio plus a caller-owned descriptor `5`. -/
def fdWorld5 : FdWorld := ⟨[0, 1, 2, 5], [], 6⟩

/-! ## Theorems -/

/-- C1: the sentinel normalization in `errorOrString` is dead code: because
`if s != "" { return s, nil }` precedes the sentinel tests, the sentinels
`"???"` and `"(null)"` are returned verbatim as successful results (with or
without the EXTENSION flag), and the empty string falls through to
`mgc.error()` instead of the specific "empty or invalid result" failure —
contradicting the claim and the function's own comments. -/
theorem c1_sentinel_passthrough_bug :
    (File envT sessionA "f").1 = .ok "???" ∧
    (File envNull sessionA "f").1 = .ok "(null)" ∧
    errorOrString envT { sessionA with flags := EXTENSION } (some "???") = .ok "???" ∧
    errorOrString envT sessionA (some "(null)") = .ok "(null)" ∧
    errorOrString envT sessionA (some "") = .error (magicError envT) ∧
    magicError envT ≠ ⟨-1, "empty or invalid result"⟩ := by
  decide

/-- C5: on an open session the second `close` is a no-op: it performs no
native call and leaves the session in exactly the state the first `close`
produced, which is observably closed. -/
theorem c5_close_idempotent (m : MagicState) (h : m.cookie = true) :
    close (close m).1 = ((close m).1, []) ∧
    IsClosed (close m).1 = true ∧
    (close m).2 = [NativeCall.closeCall] := by
  simp [close, h, IsClosed, IsOpen, verifyOpen]

/-- Witness for `c5_close_idempotent` at the concrete open session. -/
theorem c5_close_idempotent_witness :
    close (close sessionA).1 = ((close sessionA).1, []) ∧
    IsClosed (close sessionA).1 = true ∧
    (close sessionA).2 = [NativeCall.closeCall] :=
  c5_close_idempotent sessionA rfl

/-- C2 counterexample: on a session with `A.mgc` loaded, a failed `Load`
clears `paths` to `[]` and sets `loaded := false` (the claim asserts both
stay unchanged); `Paths` afterwards reports the native default search path,
not `A.mgc`. -/
theorem c2_failed_load_cex :
    sessionA.paths = ["A.mgc"] ∧ sessionA.loaded = true ∧
    (Load envT sessionA ["missing.mgc"]).1 = .error ⟨2, "could not open file"⟩ ∧
    (Load envT sessionA ["missing.mgc"]).2.1.paths = [] ∧
    (Load envT sessionA ["missing.mgc"]).2.1.loaded = false ∧
    (Paths envT (Load envT sessionA ["missing.mgc"]).2.1).1 =
      .ok ["/usr/share/misc/magic"] := by
  decide

/-- C2 (amended): on an open session a failed `Load` returns the normalized
native error and resets the cached state — `paths` is cleared to `[]` (it is
cleared on entry and only re-set on success) and `loaded` becomes `false`;
the previously loaded path set is discarded, not preserved. -/
theorem c2_failed_load_resets_state (env : NativeEnv) (m : MagicState)
    (files : List String) (ho : m.cookie = true)
    (hfail : env.loadOk (loadFilesArg env files) = false) :
    (Load env m files).1 = .error (magicError env) ∧
    (Load env m files).2.1 = { m with paths := [], loaded := false } := by
  simp [Load, verifyOpen, ho, hfail]

/-- Witness for `c2_failed_load_resets_state`. -/
theorem c2_failed_load_resets_state_witness :
    (Load envT sessionA ["missing.mgc"]).1 = .error (magicError envT) ∧
    (Load envT sessionA ["missing.mgc"]).2.1 =
      { sessionA with paths := [], loaded := false } :=
  c2_failed_load_resets_state envT sessionA ["missing.mgc"] rfl rfl

/-- C4: on a closed session every operation other than open/close/IsOpen/
IsClosed fails with the "Magic library is not open" precondition error,
performs no native call, and leaves the state unchanged. -/
theorem c4_closed_session_precondition (env : NativeEnv) (m : MagicState)
    (h : m.cookie = false) (p v : Int) (fl : Nat) (files : List String)
    (bufs : List (List Nat)) (file : String) (buf : List Nat) (fd : Int) :
    Paths env m = (.error notOpenError, m, []) ∧
    Parameter env m p = (.error notOpenError, m, []) ∧
    SetParameter env m p v = (.error notOpenError, m, []) ∧
    Flags env m = (.error notOpenError, m, []) ∧
    SetFlags env m fl = (.error notOpenError, m, []) ∧
    FlagsSlice m = (.error notOpenError, m, []) ∧
    Load env m files = (.error notOpenError, m, []) ∧
    LoadBuffers env m bufs = (.error notOpenError, m, []) ∧
    Compile env m file = (.error notOpenError, m, []) ∧
    Check env m file = (.error notOpenError, m, []) ∧
    File env m file = (.error notOpenError, m, []) ∧
    Buffer env m buf = .returns (.error notOpenError, m, []) ∧
    Descriptor env m fd = (.error notOpenError, m, []) := by
  refine ⟨?_, ?_, ?_, ?_, ?_, ?_, ?_, ?_, ?_, ?_, ?_, ?_, ?_⟩ <;>
    simp [Paths, Parameter, SetParameter, Flags, SetFlags, FlagsSlice, Load,
      LoadBuffers, Compile, Check, File, Buffer, Descriptor, verifyOpen, h]

/-- Witness for `c4_closed_session_precondition` on a concrete closed
session. -/
theorem c4_closed_session_precondition_witness :
    Paths envT sessionClosed = (.error notOpenError, sessionClosed, []) ∧
    Parameter envT sessionClosed 0 = (.error notOpenError, sessionClosed, []) ∧
    SetParameter envT sessionClosed 0 1 = (.error notOpenError, sessionClosed, []) ∧
    Flags envT sessionClosed = (.error notOpenError, sessionClosed, []) ∧
    SetFlags envT sessionClosed 16 = (.error notOpenError, sessionClosed, []) ∧
    FlagsSlice sessionClosed = (.error notOpenError, sessionClosed, []) ∧
    Load envT sessionClosed ["a.mgc"] = (.error notOpenError, sessionClosed, []) ∧
    LoadBuffers envT sessionClosed [[1]] = (.error notOpenError, sessionClosed, []) ∧
    Compile envT sessionClosed "a" = (.error notOpenError, sessionClosed, []) ∧
    Check envT sessionClosed "a" = (.error notOpenError, sessionClosed, []) ∧
    File envT sessionClosed "a" = (.error notOpenError, sessionClosed, []) ∧
    Buffer envT sessionClosed [1] = .returns (.error notOpenError, sessionClosed, []) ∧
    Descriptor envT sessionClosed 3 = (.error notOpenError, sessionClosed, []) :=
  c4_closed_session_precondition envT sessionClosed rfl 0 1 16 ["a.mgc"] [[1]] "a" [1] 3

/-- Replaying the flag writes of a concatenated trace. -/
theorem applySetflags_append (n : Nat) (l1 l2 : List NativeCall) :
    applySetflags n (l1 ++ l2) = applySetflags (applySetflags n l1) l2 := by
  induction l1 generalizing n with
  | nil => rfl
  | cons c rest ih => cases c <;> simp [applySetflags, ih]

/-- The `(*magic).error` performs no native flag write. -/
theorem applySetflags_magicErrorCalls (env : NativeEnv) (n : Nat) :
    applySetflags n (magicErrorCalls env) = n := by
  unfold magicErrorCalls
  cases env.errStr with
  | none => rfl
  | some s => by_cases h : s = "" ∨ s = "(null)" <;> simp [h, applySetflags]

/-- The `errorOrString` performs no native flag write. -/
theorem applySetflags_errorOrStringCalls (env : NativeEnv) (cs : Option String)
    (n : Nat) : applySetflags n (errorOrStringCalls env cs) = n := by
  unfold errorOrStringCalls
  cases cs with
  | none => rfl
  | some s =>
    by_cases h1 : s ≠ ""
    · simp [h1, applySetflags]
    · by_cases h2 : s = "???" ∨ s = "(null)" <;>
        simp [h1, h2, applySetflags, applySetflags_magicErrorCalls]

/-- The cached flag value is restored before the closure runs, so the state
`flagsSaveAndRestore` leaves behind is the original one. -/
theorem flagsSaveAndRestore_state {α : Type} (m : MagicState)
    (f : Nat → α × List NativeCall) :
    (flagsSaveAndRestore m f).2.1 = m := rfl

/-- When the prior flag value is positive, replaying the flag writes of a
`flagsSaveAndRestore` trace from a native register in sync with the cache
brings the register back to the prior value (the closure itself writes no
flags). -/
theorem applySetflags_fsr {α : Type} (m : MagicState)
    (f : Nat → α × List NativeCall)
    (hf : ∀ w, applySetflags w (f m.flags).2 = w) (hpos : 0 < m.flags) :
    applySetflags m.flags (flagsSaveAndRestore m f).2.2 = m.flags := by
  unfold flagsSaveAndRestore
  by_cases hok : forcesWrite m
  · simp only [hok, if_true, iff_true, hpos, and_true, if_pos, true_and]
    rw [applySetflags_append, applySetflags_append]
    simp [applySetflags, hf]
  · simp only [hok, if_false, false_and, iff_false]
    simp [applySetflags, hf]

/-- The `File` returns the session state unchanged on every path. -/
theorem File_state (env : NativeEnv) (m : MagicState) (file : String) :
    (File env m file).2.1 = m := by
  unfold File
  split
  · rfl
  · split
    · rfl
    · dsimp only
      split
      · split <;> rfl
      · rfl

/-- Replaying the flag writes of a `File` trace from a native register in
sync with a positive cached value returns the register to that value. -/
theorem File_applySetflags (env : NativeEnv) (m : MagicState) (file : String)
    (hpos : 0 < m.flags) :
    applySetflags m.flags (File env m file).2.2 = m.flags := by
  have hfsr : applySetflags m.flags
      (flagsSaveAndRestore m (fun fl => (env.fileRes file, [NativeCall.file file fl]))).2.2 =
      m.flags :=
    applySetflags_fsr m _ (fun w => rfl) hpos
  unfold File
  split
  · rfl
  · split
    · rfl
    · dsimp only
      split
      · split <;>
          simp [applySetflags_append, hfsr, applySetflags,
            applySetflags_magicErrorCalls, applySetflags_errorOrStringCalls]
      · simp [applySetflags_append, hfsr, applySetflags_errorOrStringCalls]

/-- The `Buffer` never panics, and when it returns, the session state is
unchanged and its trace restores a positive native flag register. -/
theorem Buffer_restores (env : NativeEnv) (m : MagicState) (buf : List Nat)
    (hpos : 0 < m.flags) :
    ∀ res m' calls, Buffer env m buf = .returns (res, m', calls) →
      m' = m ∧ applySetflags m.flags calls = m.flags := by
  intro res m' calls h
  unfold Buffer at h
  split at h
  · cases h
    exact ⟨rfl, rfl⟩
  · split at h
    · cases h
      exact ⟨rfl, rfl⟩
    · by_cases hb : 0 < buf.length
      · have hfsr : applySetflags m.flags
            (flagsSaveAndRestore m
              (fun fl => (env.bufferRes (some buf) buf.length,
                [NativeCall.buffer buf.length fl]))).2.2 = m.flags :=
          applySetflags_fsr m _ (fun w => rfl) hpos
        simp only [hb, if_pos, goFirstAddr] at h
        cases h
        exact ⟨rfl, by
          simp [applySetflags_append, hfsr, applySetflags_errorOrStringCalls]⟩
      · have hfsr : applySetflags m.flags
            (flagsSaveAndRestore m
              (fun fl => (env.bufferRes none buf.length,
                [NativeCall.buffer buf.length fl]))).2.2 = m.flags :=
          applySetflags_fsr m _ (fun w => rfl) hpos
        simp only [hb, if_neg, goFirstAddr] at h
        cases h
        exact ⟨rfl, by
          simp [applySetflags_append, hfsr, applySetflags_errorOrStringCalls]⟩

/-- The `Descriptor` returns the session state unchanged on every path. -/
theorem Descriptor_state (env : NativeEnv) (m : MagicState) (fd : Int) :
    (Descriptor env m fd).2.1 = m := by
  unfold Descriptor
  split
  · rfl
  · split
    · rfl
    · dsimp only
      split
      · split <;> rfl
      · rfl

/-- Replaying the flag writes of a `Descriptor` trace from a native register
in sync with a positive cached value returns the register to that value. -/
theorem Descriptor_applySetflags (env : NativeEnv) (m : MagicState) (fd : Int)
    (hpos : 0 < m.flags) :
    applySetflags m.flags (Descriptor env m fd).2.2 = m.flags := by
  have hfsr : applySetflags m.flags
      (flagsSaveAndRestore m (fun fl => (env.descRes fd, [NativeCall.descriptor fd fl]))).2.2 =
      m.flags :=
    applySetflags_fsr m _ (fun w => rfl) hpos
  unfold Descriptor
  split
  · rfl
  · split
    · rfl
    · dsimp only
      split
      · split
        · exact hfsr
        · simp [applySetflags_append, hfsr, applySetflags_errorOrStringCalls]
      · simp [applySetflags_append, hfsr, applySetflags_errorOrStringCalls]

/-- Bitwise absorption: `(a ||| b) &&& b = b`. -/
theorem lor_and_self (a b : Nat) : (a ||| b) &&& b = b := by
  apply Nat.eq_of_testBit_eq
  intro i
  simp only [Nat.testBit_and, Nat.testBit_or]
  cases a.testBit i <;> cases b.testBit i <;> rfl

/-- Under strict error reporting the forced value contains `ERROR`, so the
native write happens. -/
theorem forcesWrite_of_errors (m : MagicState) (herr : m.errors = true) :
    forcesWrite m := by
  right
  unfold forcedFlags
  rw [if_pos herr, lor_and_self]
  decide

/-- The trace of `flagsSaveAndRestore` when the forced write happens and the
prior flag value is positive: forced write, closure calls, restore write. -/
theorem fsr_calls_of_write {α : Type} (m : MagicState)
    (f : Nat → α × List NativeCall) (hok : forcesWrite m) (hpos : 0 < m.flags) :
    (flagsSaveAndRestore m f).2.2 =
      NativeCall.setflags (forcedFlags m) ::
        ((f m.flags).2 ++ [NativeCall.setflags m.flags]) := by
  unfold flagsSaveAndRestore
  simp [hok, hpos]

/-- C3 counterexample: on the open, loaded session with prior flags `0` and
strict error reporting, a `File` query leaves the native flag register at
`RAW ||| ERROR` (the deferred restore is skipped because the prior value is
not positive), so the native state does not equal the prior value as the
claim asserts; the cached value is restored. -/
theorem c3_flag_restore_cex :
    sessionA.flags = 0 ∧ sessionA.errors = true ∧
    (File envT sessionA "f").2.1.flags = 0 ∧
    applySetflags sessionA.flags (File envT sessionA "f").2.2 = RAW ||| ERROR ∧
    RAW ||| ERROR ≠ 0 := by
  decide

/-- C3 (amended): for each query operation the cached flag bitmask is always
restored to the prior value `f`, and the native flag register — started in
sync with the cache — is back at `f` after the operation whenever `f > 0`;
the forced value `f | RAW` (plus `ERROR` under strict error reporting) is
written to the native session only when it contains `CONTINUE` or `ERROR`
(in particular always under strict error reporting), and when `f = 0` such a
forced write is not undone. -/
theorem c3_scoped_flag_override (env : NativeEnv) (m : MagicState)
    (file : String) (buf : List Nat) (fd : Int) (hpos : 0 < m.flags) :
    ((File env m file).2.1 = m ∧
      applySetflags m.flags (File env m file).2.2 = m.flags) ∧
    (∀ res m' calls, Buffer env m buf = .returns (res, m', calls) →
      m' = m ∧ applySetflags m.flags calls = m.flags) ∧
    ((Descriptor env m fd).2.1 = m ∧
      applySetflags m.flags (Descriptor env m fd).2.2 = m.flags) ∧
    (m.errors = true → m.cookie = true → m.loaded = true →
      ∃ rest, (File env m file).2.2 =
        NativeCall.setflags (forcedFlags m) :: NativeCall.file file m.flags :: rest) := by
  refine ⟨⟨File_state env m file, File_applySetflags env m file hpos⟩,
    Buffer_restores env m buf hpos,
    ⟨Descriptor_state env m fd, Descriptor_applySetflags env m fd hpos⟩, ?_⟩
  intro herr hcookie hld
  have hok := forcesWrite_of_errors m herr
  have hcalls := fsr_calls_of_write m
    (fun fl => (env.fileRes file, [NativeCall.file file fl])) hok hpos
  unfold File
  rw [show verifyOpen m = none by simp [verifyOpen, hcookie]]
  rw [show verifyLoaded m = none by simp [verifyLoaded, verifyOpen, hcookie, hld]]
  dsimp only
  split
  · split
    · exact ⟨[NativeCall.setflags m.flags] ++ magicErrorCalls env, by
        rw [hcalls]; simp⟩
    · exact ⟨[NativeCall.setflags m.flags] ++ [NativeCall.errorQuery] ++
        errorOrStringCalls env env.errStr, by rw [hcalls]; simp⟩
  · next s _ =>
      exact ⟨[NativeCall.setflags m.flags] ++ errorOrStringCalls env (some s), by
        rw [hcalls]; simp⟩

/-- Witness for `c3_scoped_flag_override` at a session with flags `MIME`. -/
theorem c3_scoped_flag_override_witness :
    (((File envT { sessionA with flags := MIME } "f").2.1 =
        { sessionA with flags := MIME } ∧
      applySetflags { sessionA with flags := MIME }.flags
        (File envT { sessionA with flags := MIME } "f").2.2 =
        { sessionA with flags := MIME }.flags) ∧
    (∀ res m' calls, Buffer envT { sessionA with flags := MIME } [1] =
        .returns (res, m', calls) →
      m' = { sessionA with flags := MIME } ∧
      applySetflags { sessionA with flags := MIME }.flags calls =
        { sessionA with flags := MIME }.flags) ∧
    ((Descriptor envT { sessionA with flags := MIME } 3).2.1 =
        { sessionA with flags := MIME } ∧
      applySetflags { sessionA with flags := MIME }.flags
        (Descriptor envT { sessionA with flags := MIME } 3).2.2 =
        { sessionA with flags := MIME }.flags) ∧
    ({ sessionA with flags := MIME }.errors = true →
      { sessionA with flags := MIME }.cookie = true →
      { sessionA with flags := MIME }.loaded = true →
      ∃ rest, (File envT { sessionA with flags := MIME } "f").2.2 =
        NativeCall.setflags (forcedFlags { sessionA with flags := MIME }) ::
          NativeCall.file "f" { sessionA with flags := MIME }.flags :: rest)) :=
  c3_scoped_flag_override envT { sessionA with flags := MIME } "f" [1] 3 (by decide)

/-- C9 counterexample: on an open, loaded session whose native matcher
answers `"empty"` for a zero-size query (libmagic's actual answer for
zero-length input), `Buffer` on the empty buffer returns a *successful*
result, not a structured error, refuting the claim that the operation
returns an error. -/
theorem c9_empty_buffer_cex :
    Buffer envT sessionA [] =
      .returns (.ok "empty", sessionA,
        [NativeCall.setflags (RAW ||| ERROR), NativeCall.buffer 0 0]) ∧
    isErrorOutcome (Buffer envT sessionA []) = false := by
  decide

/-- C9 (amended): on an open, loaded session, `Buffer` with a zero-length
buffer never panics (the `&buffer[0]` access is guarded by `cSize > 0`):
it passes the null pointer and size zero to the native matcher and returns
the `errorOrString`-normalized native result — a success when the native
matcher returns a non-empty string, an error otherwise. -/
theorem c9_empty_buffer_no_panic (env : NativeEnv) (m : MagicState)
    (ho : m.cookie = true) (hl : m.loaded = true) :
    ∃ calls, Buffer env m [] =
      .returns (errorOrString env m (env.bufferRes none 0), m, calls) ∧
      NativeCall.buffer 0 m.flags ∈ calls := by
  unfold Buffer
  rw [show verifyOpen m = none by simp [verifyOpen, ho]]
  rw [show verifyLoaded m = none by simp [verifyLoaded, verifyOpen, ho, hl]]
  dsimp only
  refine ⟨_, rfl, ?_⟩
  unfold flagsSaveAndRestore
  by_cases hok : forcesWrite m <;> simp [hok]

/-- Witness for `c9_empty_buffer_no_panic`. -/
theorem c9_empty_buffer_no_panic_witness :
    ∃ calls, Buffer envT sessionA [] =
      .returns (errorOrString envT sessionA (envT.bufferRes none 0), sessionA, calls) ∧
      NativeCall.buffer 0 sessionA.flags ∈ calls :=
  c9_empty_buffer_no_panic envT sessionA rfl rfl

/-- C6: on a broken-build descriptor query, every descriptor open before the
call is still open afterwards (in particular the caller's `fd`); when `fd`
is valid, the only descriptor handed to the native matcher is the fresh
close-on-exec duplicate, which is distinct from `fd` and closed by the time
the wrapper returns; when `fd` is invalid, nothing is passed or closed. -/
theorem c6_descriptor_safety (env : CEnv) (w : FdWorld) (fd : Int)
    (hwf : w.WF) :
    (∀ x ∈ w.openFds, x ∈ (magic_descriptor_wrapper env w fd).2.1.openFds) ∧
    (fd ∈ w.openFds →
      (magic_descriptor_wrapper env w fd).2.2 = [w.nextFd] ∧
      w.nextFd ≠ fd ∧
      w.nextFd ∈ (safe_dup w fd).2.cloexec ∧
      w.nextFd ∉ (magic_descriptor_wrapper env w fd).2.1.openFds) ∧
    (fd ∉ w.openFds → magic_descriptor_wrapper env w fd = (none, w, [])) := by
  by_cases hmem : fd ∈ w.openFds
  · have hne : ∀ x ∈ w.openFds, x ≠ w.nextFd := fun x hx => ne_of_lt (hwf x hx)
    refine ⟨?_, fun _ => ⟨?_, ?_, ?_, ?_⟩, fun h => absurd hmem h⟩
    · intro x hx
      simp only [magic_descriptor_wrapper, safe_dup, hmem, if_pos,
        nativeDescriptorCall, check_fd, removeFd]
      by_cases hcl : env.nativeClosesFd <;>
        simp [hcl, List.mem_filter, hx, hne x hx]
    · simp only [magic_descriptor_wrapper, safe_dup, hmem, if_pos,
        nativeDescriptorCall, check_fd, removeFd]
    · exact (hne fd hmem).symm
    · simp [safe_dup, hmem]
    · simp only [magic_descriptor_wrapper, safe_dup, hmem, if_pos,
        nativeDescriptorCall, check_fd, removeFd]
      by_cases hcl : env.nativeClosesFd <;>
        simp [hcl, List.mem_filter, fun x hx => hne x hx]
  · refine ⟨?_, fun h => absurd h hmem, fun _ => ?_⟩
    · intro x hx
      simp [magic_descriptor_wrapper, safe_dup, hmem, hx]
    · simp [magic_descriptor_wrapper, safe_dup, hmem]

/-- Witness for `c6_descriptor_safety`: caller-owned descriptor `5` in a
concrete table, broken native build. -/
theorem c6_descriptor_safety_witness :
    (∀ x ∈ fdWorld5.openFds,
      x ∈ (magic_descriptor_wrapper cenvBroken fdWorld5 5).2.1.openFds) ∧
    (5 ∈ fdWorld5.openFds →
      (magic_descriptor_wrapper cenvBroken fdWorld5 5).2.2 = [fdWorld5.nextFd] ∧
      fdWorld5.nextFd ≠ 5 ∧
      fdWorld5.nextFd ∈ (safe_dup fdWorld5 5).2.cloexec ∧
      fdWorld5.nextFd ∉ (magic_descriptor_wrapper cenvBroken fdWorld5 5).2.1.openFds) ∧
    (5 ∉ fdWorld5.openFds →
      magic_descriptor_wrapper cenvBroken fdWorld5 5 = (none, fdWorld5, [])) :=
  c6_descriptor_safety cenvBroken fdWorld5 5 (by decide)

/-- The `Load` touches only `paths` and `loaded`. -/
theorem Load_preserve (env : NativeEnv) (m : MagicState) (files : List String) :
    (Load env m files).2.1.cookie = m.cookie ∧
    (Load env m files).2.1.autoload = m.autoload ∧
    (Load env m files).2.1.errors = m.errors := by
  unfold Load
  split
  · exact ⟨rfl, rfl, rfl⟩
  · dsimp only
    split <;> exact ⟨rfl, rfl, rfl⟩

/-- The `LoadBuffers` touches only `paths` and `loaded`. -/
theorem LoadBuffers_preserve (env : NativeEnv) (m : MagicState)
    (bufs : List (List Nat)) :
    (LoadBuffers env m bufs).2.1.cookie = m.cookie ∧
    (LoadBuffers env m bufs).2.1.autoload = m.autoload ∧
    (LoadBuffers env m bufs).2.1.errors = m.errors := by
  unfold LoadBuffers
  split
  · exact ⟨rfl, rfl, rfl⟩
  · dsimp only
    split <;> exact ⟨rfl, rfl, rfl⟩

/-- No option opens or closes the session, re-enables strict error
reporting, re-enables autoloading, or (for non-loading options) changes the
loaded state. -/
theorem applyOption_preserve (env : NativeEnv) (m : MagicState) (o : GoOption) :
    (applyOption env m o).2.1.cookie = m.cookie ∧
    ((applyOption env m o).2.1.errors = true → m.errors = true) ∧
    ((applyOption env m o).2.1.autoload = true → m.autoload = true) ∧
    (optionLoads o = false → (applyOption env m o).2.1.loaded = m.loaded) := by
  cases o with
  | doNotStopOnErrors =>
    exact ⟨rfl, by simp [applyOption], fun h => h, fun _ => rfl⟩
  | disableAutoload =>
    exact ⟨rfl, fun h => h, by simp [applyOption], fun _ => rfl⟩
  | withFiles files =>
    exact ⟨(Load_preserve env m files).1,
      fun h => (Load_preserve env m files).2.2 ▸ h,
      fun h => (Load_preserve env m files).2.1 ▸ h,
      by simp [optionLoads]⟩
  | withBuffers buffers =>
    exact ⟨(LoadBuffers_preserve env m buffers).1,
      fun h => (LoadBuffers_preserve env m buffers).2.2 ▸ h,
      fun h => (LoadBuffers_preserve env m buffers).2.1 ▸ h,
      by simp [optionLoads]⟩

/-- The option loop preserves the session invariants of
`applyOption_preserve`. -/
theorem runOptions_preserve (env : NativeEnv) (opts : List GoOption) :
    ∀ m : MagicState,
    (runOptions env m opts).2.1.cookie = m.cookie ∧
    ((runOptions env m opts).2.1.errors = true → m.errors = true) ∧
    ((runOptions env m opts).2.1.autoload = true → m.autoload = true) ∧
    ((∀ o ∈ opts, optionLoads o = false) →
      (runOptions env m opts).2.1.loaded = m.loaded) := by
  induction opts with
  | nil => exact fun m => ⟨rfl, fun h => h, fun h => h, fun _ => rfl⟩
  | cons o rest ih =>
    intro m
    have ha := applyOption_preserve env m o
    have hr := ih (applyOption env m o).2.1
    unfold runOptions
    dsimp only
    rcases hcase : (applyOption env m o).1 with _ | e
    · dsimp only
      refine ⟨by rw [hr.1, ha.1], fun h => ha.2.1 (hr.2.1 h),
        fun h => ha.2.2.1 (hr.2.2.1 h), fun hall => ?_⟩
      rw [hr.2.2.2 (fun o' ho' => hall o' (List.mem_cons_of_mem o ho')),
        ha.2.2.2 (hall o (List.mem_cons_self o rest))]
    · dsimp only
      exact ⟨ha.1, ha.2.1, ha.2.2.1,
        fun hall => ha.2.2.2 (hall o (List.mem_cons_self o rest))⟩

/-- The state `New` starts the option loop from is open and unloaded. -/
theorem newEnvState_cookie (env : NativeEnv) :
    (newEnvState env).cookie = true := by
  unfold newEnvState initialState
  split <;> split <;> rfl

theorem newEnvState_loaded (env : NativeEnv) :
    (newEnvState env).loaded = false := by
  unfold newEnvState initialState
  split <;> split <;> rfl

/-- The `MAGIC_DO_NOT_AUTOLOAD` is consulted before the options run: the state
handed to the option loop has autoloading on exactly when it is unset. -/
theorem newEnvState_autoload (env : NativeEnv) :
    ((newEnvState env).autoload = true ↔ env.doNotAutoload = "") := by
  unfold newEnvState initialState
  by_cases h1 : env.doNotAutoload = "" <;> by_cases h2 : env.doNotStopOnError = "" <;>
    simp [h1, h2]

/-- The `MAGIC_DO_NOT_STOP_ON_ERROR` is consulted before the options run: the
state handed to the option loop has strict error reporting on exactly when
it is unset. -/
theorem newEnvState_errors (env : NativeEnv) :
    ((newEnvState env).errors = true ↔ env.doNotStopOnError = "") := by
  unfold newEnvState initialState
  by_cases h1 : env.doNotAutoload = "" <;> by_cases h2 : env.doNotStopOnError = "" <;>
    simp [h1, h2]

/-- A successfully constructed session is open, its strict error reporting
can only be on if it was on after the environment variables were applied,
and under `MAGIC_DO_NOT_AUTOLOAD` with non-loading options it comes back
unloaded with autoloading off. -/
theorem New_ok_state (env : NativeEnv) (opts : List GoOption) (m : MagicState)
    (c : List NativeCall) (h : New env opts = (.ok m, c)) :
    m.cookie = true ∧
    (m.errors = true → (newEnvState env).errors = true) ∧
    (env.doNotAutoload ≠ "" → (∀ o ∈ opts, optionLoads o = false) →
      m.loaded = false ∧ m.autoload = false) := by
  have hro := runOptions_preserve env opts (newEnvState env)
  unfold New at h
  by_cases hopen : env.openOk = true
  · rw [if_pos hopen] at h
    dsimp only at h
    rcases hcase : (runOptions env (newEnvState env) opts).1 with _ | e
    · rw [hcase] at h
      dsimp only at h
      by_cases hauto : ((runOptions env (newEnvState env) opts).2.1.autoload = true ∧
          ¬ (runOptions env (newEnvState env) opts).2.1.loaded = true)
      · rw [if_pos hauto] at h
        have hl := Load_preserve env (runOptions env (newEnvState env) opts).2.1 []
        rcases hld : (Load env (runOptions env (newEnvState env) opts).2.1 []).1 with e2 | u
        · rw [hld] at h
          simp at h
        · rw [hld] at h
          dsimp only at h
          simp only [Prod.mk.injEq, Except.ok.injEq] at h
          obtain ⟨hm, -⟩ := h
          subst hm
          refine ⟨by rw [hl.1, hro.1, newEnvState_cookie],
            fun he => hro.2.1 (hl.2.2 ▸ he), fun hset _ => ?_⟩
          have hcontra : (newEnvState env).autoload = true := hro.2.2.1 hauto.1
          rw [newEnvState_autoload] at hcontra
          exact absurd hcontra hset
      · rw [if_neg hauto] at h
        simp only [Prod.mk.injEq, Except.ok.injEq] at h
        obtain ⟨hm, -⟩ := h
        subst hm
        refine ⟨by rw [hro.1, newEnvState_cookie], hro.2.1, fun hset hall => ?_⟩
        have hload : (runOptions env (newEnvState env) opts).2.1.loaded = false := by
          rw [hro.2.2.2 hall, newEnvState_loaded]
        have hauto2 : (runOptions env (newEnvState env) opts).2.1.autoload = false := by
          by_contra hc
          simp only [Bool.not_eq_false] at hc
          have hc2 := hro.2.2.1 hc
          rw [newEnvState_autoload] at hc2
          exact absurd hc2 hset
        exact ⟨hload, hauto2⟩
    · rw [hcase] at h
      simp at h
  · rw [if_neg hopen] at h
    simp at h

/-- After `close`, the session is closed. -/
theorem close_cookie (m : MagicState) : (close m).1.cookie = false := by
  unfold close
  split
  · rfl
  · next h => simpa using h

/-- C7: `Open` either returns `New`'s error without invoking the callback,
or invokes it on the freshly constructed (open) session and closes that
session on every exit path, converting a panic into a returned structured
error — the panic value itself when it is an error, and an `Error{-1, v}`
otherwise — rather than propagating it. -/
theorem c7_open_scoped_session (env : NativeEnv) (opts : List GoOption)
    (f : MagicState → CallbackOutcome × MagicState) :
    (∀ e c, New env opts = (.error e, c) →
      (Open env (some f) opts).result = some e ∧
      (Open env (some f) opts).invoked = false) ∧
    (∀ m c, New env opts = (.ok m, c) →
      m.cookie = true ∧
      (Open env (some f) opts).invoked = true ∧
      (∃ ms, (Open env (some f) opts).sessionFinal = some ms ∧
        ms.cookie = false) ∧
      (∀ e, (f m).1 = .normal e → (Open env (some f) opts).result = e) ∧
      (∀ e, (f m).1 = .panicked (.errVal e) →
        (Open env (some f) opts).result = some e) ∧
      (∀ s, (f m).1 = .panicked (.otherVal s) →
        (Open env (some f) opts).result = some ⟨-1, s⟩)) := by
  constructor
  · intro e c h
    unfold Open
    rw [h]
    exact ⟨rfl, rfl⟩
  · intro m c h
    have hcookie := (New_ok_state env opts m c h).1
    unfold Open
    rw [h]
    dsimp only
    refine ⟨hcookie, rfl, ⟨(close (f m).2).1, rfl, close_cookie (f m).2⟩,
      ?_, ?_, ?_⟩
    · intro e he
      rw [he]
    · intro e he
      rw [he]
    · intro s hs
      rw [hs]

/-- Witness for `c7_open_scoped_session`: a callback that panics with a
non-error value on the concrete constructible environment. -/
theorem c7_open_scoped_session_witness :
    New envOkLoad [] =
      (.ok { mNoAuto with
        errors := true, autoload := true, loaded := true,
        paths := ["/usr/share/misc/magic"] },
       [NativeCall.openCall, NativeCall.getpath,
        NativeCall.load "/usr/share/misc/magic" 0]) ∧
    (Open envOkLoad
      (some fun m => (.panicked (.otherVal "boom"), m)) []).result =
      some ⟨-1, "boom"⟩ ∧
    (Open envOkLoad
      (some fun m => (.panicked (.otherVal "boom"), m)) []).invoked = true :=
  have hnew : New envOkLoad [] =
      (.ok { mNoAuto with
        errors := true, autoload := true, loaded := true,
        paths := ["/usr/share/misc/magic"] },
       [NativeCall.openCall, NativeCall.getpath,
        NativeCall.load "/usr/share/misc/magic" 0]) := by decide
  ⟨hnew,
   ((c7_open_scoped_session envOkLoad []
      (fun m => (.panicked (.otherVal "boom"), m))).2 _ _ hnew).2.2.2.2.2 "boom" rfl,
   ((c7_open_scoped_session envOkLoad []
      (fun m => (.panicked (.otherVal "boom"), m))).2 _ _ hnew).2.1⟩

/-- Specification of the fuel-based log2: with enough fuel it computes the
floor of the base-2 logarithm. -/
theorem log2floorAux_spec : ∀ fuel n, n ≤ fuel → 1 ≤ n →
    2 ^ log2floorAux n fuel ≤ n ∧ n < 2 ^ (log2floorAux n fuel + 1) := by
  intro fuel
  induction fuel with
  | zero =>
    intro n hle h1
    omega
  | succ fuel ih =>
    intro n hle h1
    unfold log2floorAux
    by_cases h2 : 2 ≤ n
    · rw [if_pos h2]
      have hrec := ih (n / 2) (by omega) (by omega)
      have e1 : 2 ^ (log2floorAux (n / 2) fuel + 1) =
          2 * 2 ^ log2floorAux (n / 2) fuel := by
        rw [pow_succ]; ring
      have e2 : 2 ^ (log2floorAux (n / 2) fuel + 1 + 1) =
          2 * 2 ^ (log2floorAux (n / 2) fuel + 1) := by
        rw [pow_succ _ (log2floorAux (n / 2) fuel + 1)]; ring
      omega
    · rw [if_neg h2]
      constructor
      · simpa using h1
      · simpa using by omega

theorem log2floor_spec (n : Nat) (h1 : 1 ≤ n) :
    2 ^ log2floor n ≤ n ∧ n < 2 ^ (log2floor n + 1) :=
  log2floorAux_spec n n le_rfl h1

/-- The highest set bit of a positive number is at most the number. -/
theorem highBit_le (n : Nat) (h : 1 ≤ n) : highBit n ≤ n := (log2floor_spec n h).1

theorem highBit_pos (n : Nat) : 1 ≤ highBit n := Nat.one_le_two_pow

/-- Removing the highest set bit leaves a remainder below that bit. -/
theorem sub_highBit_lt (n : Nat) (h : 1 ≤ n) :
    n - highBit n < 2 ^ log2floor n := by
  have h2 := (log2floor_spec n h).2
  have e1 : 2 ^ (log2floor n + 1) = 2 * 2 ^ log2floor n := by rw [pow_succ]; ring
  unfold highBit
  omega

/-- The top bit of a binary decomposition is set. -/
theorem testBit_decomp_high (K r : Nat) (hr : r < 2 ^ K) :
    (2 ^ K + r).testBit K = true := by
  rw [Nat.testBit_two_pow_add_eq, Nat.testBit_lt_two_pow hr]
  rfl

/-- Bits below the top bit of a binary decomposition come from the
remainder. -/
theorem testBit_decomp_low (K r k : Nat) (hk : k < K)
    (hb : r.testBit k = true) : (2 ^ K + r).testBit k = true := by
  rw [Nat.testBit_two_pow_add_gt hk]
  exact hb

/-- The extraction loop of `FlagsSlice` produces exactly the set bits of its
argument (as powers of two), and they sum back to the argument. -/
theorem bitsDescAux_spec : ∀ fuel i, i ≤ fuel →
    (bitsDescAux i fuel).sum = i ∧
    ∀ x ∈ bitsDescAux i fuel, ∃ k, x = 2 ^ k ∧ i.testBit k = true := by
  intro fuel
  induction fuel with
  | zero =>
    intro i hle
    have hi : i = 0 := by omega
    subst hi
    simp [bitsDescAux]
  | succ fuel ih =>
    intro i hle
    unfold bitsDescAux
    by_cases hpos : 0 < i
    · rw [if_pos hpos]
      have hKle : highBit i ≤ i := highBit_le i hpos
      have hrlt : i - highBit i < 2 ^ log2floor i := sub_highBit_lt i hpos
      have hfuel : i - highBit i ≤ fuel := by
        have := highBit_pos i
        omega
      obtain ⟨hsum, hmem⟩ := ih (i - highBit i) hfuel
      have hhb : highBit i = 2 ^ log2floor i := rfl
      have heq : i = 2 ^ log2floor i + (i - highBit i) := by omega
      constructor
      · simp only [List.sum_cons, hsum]
        omega
      · intro x hx
        rcases List.mem_cons.mp hx with hx | hx
        · subst hx
          refine ⟨log2floor i, rfl, ?_⟩
          have hhigh := testBit_decomp_high (log2floor i) (i - highBit i) hrlt
          rwa [← heq] at hhigh
        · obtain ⟨k, hxk, hbit⟩ := hmem x hx
          have hklt : k < log2floor i := by
            by_contra hge
            push_neg at hge
            have hlt : i - highBit i < 2 ^ k :=
              lt_of_lt_of_le hrlt (Nat.pow_le_pow_right (by norm_num) hge)
            rw [Nat.testBit_lt_two_pow hlt] at hbit
            exact Bool.false_ne_true hbit
          refine ⟨k, hxk, ?_⟩
          have hlow := testBit_decomp_low (log2floor i) (i - highBit i) k hklt hbit
          rwa [← heq] at hlow
    · rw [if_neg hpos]
      have hi : i = 0 := by omega
      subst hi
      simp

theorem bitsDesc_spec (f : Nat) :
    (bitsDesc f).sum = f ∧
    ∀ x ∈ bitsDesc f, ∃ k, x = 2 ^ k ∧ f.testBit k = true :=
  bitsDescAux_spec f f le_rfl

theorem sortInts_sorted (l : List Nat) : (sortInts l).Sorted (· ≤ ·) :=
  List.sorted_insertionSort _ l

theorem sortInts_perm (l : List Nat) : (sortInts l).Perm l :=
  List.perm_insertionSort _ l

/-- C8: `FlagsSlice` decomposes the bitmask into its set bits in ascending
order — on `0x410` it yields `[0x10, 0x400]`, on `0` the one-element list
`[0]`, never the empty list; in general (positive mask, open session) the
result is the ascending list of powers of two at the mask's set bits,
summing back to the mask. -/
theorem c8_flags_decomposition :
    (FlagsSlice { sessionA with flags := 0x410 }).1 = .ok [0x10, 0x400] ∧
    (FlagsSlice { sessionA with flags := 0 }).1 = .ok [0] ∧
    (∀ m : MagicState, ∀ l, (FlagsSlice m).1 = .ok l → l ≠ []) ∧
    (∀ f : Nat, 0 < f →
      (sortInts (bitsDesc f)).Sorted (· ≤ ·) ∧
      (sortInts (bitsDesc f)).sum = f ∧
      (∀ x ∈ sortInts (bitsDesc f), ∃ k, x = 2 ^ k ∧ f.testBit k = true)) ∧
    (∀ m : MagicState, m.cookie = true → 0 < m.flags →
      (FlagsSlice m).1 = .ok (sortInts (bitsDesc m.flags))) := by
  refine ⟨by decide, by decide, ?_, ?_, ?_⟩
  · intro m l hl
    unfold FlagsSlice at hl
    split at hl
    · simp at hl
    · by_cases h0 : m.flags = 0
      · rw [if_pos h0] at hl
        simp only [Except.ok.injEq] at hl
        subst hl
        simp
      · rw [if_neg h0] at hl
        simp only [Except.ok.injEq] at hl
        subst hl
        intro hemp
        have hsum : (sortInts (bitsDesc m.flags)).sum = m.flags := by
          rw [(sortInts_perm (bitsDesc m.flags)).sum_eq, (bitsDesc_spec m.flags).1]
        rw [hemp] at hsum
        simp at hsum
        exact h0 hsum.symm
  · intro f hf
    refine ⟨sortInts_sorted _, ?_, ?_⟩
    · rw [(sortInts_perm (bitsDesc f)).sum_eq, (bitsDesc_spec f).1]
    · intro x hx
      exact (bitsDesc_spec f).2 x ((sortInts_perm (bitsDesc f)).mem_iff.mp hx)
  · intro m hm hf
    unfold FlagsSlice
    rw [show verifyOpen m = none by simp [verifyOpen, hm]]
    rw [if_neg (by omega)]

/-- Witness for `c8_flags_decomposition` at the `0x410` bitmask. -/
theorem c8_flags_decomposition_witness :
    ([0x10, 0x400] : List Nat) ≠ [] ∧
    ((sortInts (bitsDesc 0x410)).Sorted (· ≤ ·) ∧
      (sortInts (bitsDesc 0x410)).sum = 0x410 ∧
      (∀ x ∈ sortInts (bitsDesc 0x410), ∃ k, x = 2 ^ k ∧
        Nat.testBit 0x410 k = true)) ∧
    (FlagsSlice { sessionA with flags := 0x410 }).1 =
      .ok (sortInts (bitsDesc 0x410)) :=
  ⟨c8_flags_decomposition.2.2.1 { sessionA with flags := 0x410 } [0x10, 0x400]
      (by decide),
   c8_flags_decomposition.2.2.2.1 0x410 (by decide),
   c8_flags_decomposition.2.2.2.2 { sessionA with flags := 0x410 } rfl (by decide)⟩

/-- C10: the two construction environment variables are applied to the
session before any option runs (the option loop starts from `newEnvState`,
whose autoload/strict-error fields mirror the variables); with
`MAGIC_DO_NOT_STOP_ON_ERROR` set every successfully constructed session has
strict error reporting off, and with `MAGIC_DO_NOT_AUTOLOAD` set (and no
loading option) the constructed session is unloaded with autoloading off. -/
theorem c10_new_env_vars (env : NativeEnv) (opts : List GoOption) :
    ((newEnvState env).autoload = true ↔ env.doNotAutoload = "") ∧
    ((newEnvState env).errors = true ↔ env.doNotStopOnError = "") ∧
    (env.doNotStopOnError ≠ "" →
      ∀ m c, New env opts = (.ok m, c) → m.errors = false) ∧
    (env.doNotAutoload ≠ "" → (∀ o ∈ opts, optionLoads o = false) →
      ∀ m c, New env opts = (.ok m, c) → m.loaded = false ∧ m.autoload = false) := by
  refine ⟨newEnvState_autoload env, newEnvState_errors env, ?_, ?_⟩
  · intro hset m c h
    have h2 := (New_ok_state env opts m c h).2.1
    by_contra hc
    simp only [Bool.not_eq_false] at hc
    have h3 := h2 hc
    rw [newEnvState_errors] at h3
    exact hset h3
  · intro hset hall m c h
    exact (New_ok_state env opts m c h).2.2 hset hall

/-- Witness for `c10_new_env_vars`: with both variables set, `New` returns
an open session with no automatic load, `loaded = false`, `autoload = false`
and `errors = false`. -/
theorem c10_new_env_vars_witness :
    New envNoAuto [] = (.ok mNoAuto, [NativeCall.openCall]) ∧
    mNoAuto.errors = false ∧ (mNoAuto.loaded = false ∧ mNoAuto.autoload = false) :=
  have hnew : New envNoAuto [] = (.ok mNoAuto, [NativeCall.openCall]) := by decide
  ⟨hnew,
   (c10_new_env_vars envNoAuto []).2.2.1 (by decide) mNoAuto [NativeCall.openCall] hnew,
   (c10_new_env_vars envNoAuto []).2.2.2 (by decide) (by simp) mNoAuto
     [NativeCall.openCall] hnew⟩

end GoMagic
